import Mathlib

/-!
Verification of the core pipeline of `mcp-swagger-reader` (src/index.ts):
a shallow embedding of the document-acquisition / filter / normalize /
sanitize / mock-synthesis pipeline, followed by theorems checking the
specification's claims against it.

Modelling conventions:
* Parsed JSON documents are pure trees (`Json`): `JSON.parse` never
  produces shared references, so documents obtained from the network are
  faithfully modelled as trees.
* `sanitizeRecursive` operates on a JavaScript object *graph*, so it is
  embedded over an explicit store (`Store`): addresses (`Addr`) play the
  role of JS reference identity, and the WeakSet of visited objects is a
  list of addresses threaded through the traversal exactly as the shared
  mutable set is in the source.
* JavaScript truthiness, `||`, optional chaining and property access are
  embedded by the helpers `truthy`, `jsOr`, `jsGet`.
* Machine numbers appearing in documents are modelled as `Int`; none of
  the verified claims depends on fractional values.
-/

namespace SwaggerReader

/-- JSON value as produced by `JSON.parse` (a pure tree; object fields in
insertion order, which is also `Object.entries`/`for-in` order for the
string keys used throughout the source). -/
inductive Json where
  | null
  | bool (b : Bool)
  | num (n : Int)
  | str (s : String)
  | arr (elems : List Json)
  | obj (fields : List (String × Json))

/-- JS truthiness of a JSON value. -/
def truthy : Json → Bool
  | .null => false
  | .bool b => b
  | .num n => n != 0
  | .str s => s ≠ ""
  | .arr _ => true
  | .obj _ => true

/-- Truthiness of a possibly-undefined value (`undefined` is falsy). -/
def truthyO : Option Json → Bool
  | none => false
  | some v => truthy v

/-- First binding of a key in a field list (JS property lookup). -/
def lookupField : List (String × Json) → String → Option Json
  | [], _ => none
  | (k, v) :: rest, key => if k = key then some v else lookupField rest key

/-- JS property access `v.key`: `none` models `undefined` (also the result
of accessing a property on a primitive, which JS yields as `undefined`
after boxing). -/
def jsGet : Json → String → Option Json
  | .obj fields, key => lookupField fields key
  | _, _ => none

/-- JS `a || b` where `a` is a property access (absent ⇒ `undefined` ⇒
falsy). -/
def jsOr (a : Option Json) (b : Json) : Json :=
  match a with
  | some v => if truthy v then v else b
  | none => b

/-- `typeof v === "object" && v !== null` (arrays included). -/
def isObjLike : Json → Bool
  | .arr _ => true
  | .obj _ => true
  | _ => false

/-- A field present exactly when the value exists; models the fact that a
property assigned `undefined` is dropped by `JSON.stringify`. -/
def optField (key : String) : Option Json → List (String × Json)
  | some v => [(key, v)]
  | none => []

/-- `pat` is a prefix of `s` (character lists). -/
def charsStartWith : List Char → List Char → Bool
  | [], _ => true
  | _ :: _, [] => false
  | a :: as, b :: bs => a = b && charsStartWith as bs

/-- `pat` occurs somewhere in `s` (character lists).  Mirrors
`String.prototype.includes`. -/
def charsContain : List Char → List Char → Bool
  | [], pat => pat.isEmpty
  | s@(_ :: rest), pat => charsStartWith pat s || charsContain rest pat

/-- JS `s.includes(pat)`. -/
def strContains (s pat : String) : Bool :=
  charsContain s.data pat.data

/-- `s.toLowerCase()` (over the character list). -/
def strToLower (s : String) : String :=
  String.mk (s.data.map Char.toLower)

/-- `s.startsWith(pat)`. -/
def strStartsWith (s pat : String) : Bool :=
  charsStartWith pat.data s.data

/-- `s.substring(0, n)` (counted in characters rather than UTF-16 code
units; the sliced previews in this model are ASCII). -/
def strTake (s : String) (n : Nat) : String :=
  String.mk (s.data.take n)

/- ------------------------------------------------------------------ -/
/- Sanitizer (src/index.ts, `sanitizeRecursive`, lines 135-153)        -/
/- ------------------------------------------------------------------ -/

/-- Address of a JS object in the heap; plays the role of reference
identity for the WeakSet of visited objects. -/
abbrev Addr := List Nat

/-- A JS primitive (non-object) value. -/
inductive Prim where
  | null
  | bool (b : Bool)
  | num (n : Int)
  | str (s : String)

def primToJson : Prim → Json
  | .null => .null
  | .bool b => .bool b
  | .num n => .num n
  | .str s => .str s

/-- A JS value as seen by the sanitizer: a primitive or a reference to a
heap object. -/
inductive GVal where
  | prim (p : Prim)
  | ref (a : Addr)

/-- A heap object: an array or a plain object. -/
inductive JSObj where
  | arr (elems : List GVal)
  | obj (fields : List (String × GVal))

/-- The heap: every address holds an object (possibly cyclically
referencing other addresses, as after `$ref` resolution). -/
abbrev Store := Addr → JSObj

/-- Truncation marker produced by `sanitizeRecursive` when
`depth > maxDepth`. -/
def truncMsg (maxDepth : Nat) : String :=
  "[Truncated: >" ++ toString maxDepth ++ " levels]"

/-- `obj.map(item => sanitizeRecursive(item, depth + 1, maxDepth, seen))`
with `f` standing for the sanitizer one level deeper: the children share
the mutated `seen` set, sequentially, left to right. -/
def sanitizeListWith (f : GVal → List Addr → Json × List Addr) :
    List GVal → List Addr → List Json × List Addr
  | [], seen => ([], seen)
  | v :: rest, seen =>
    match f v seen with
    | (j, seen1) =>
      match sanitizeListWith f rest seen1 with
      | (js, seen2) => (j :: js, seen2)

/-- The `for key in obj` loop of the source, again threading `seen`. -/
def sanitizeFieldsWith (f : GVal → List Addr → Json × List Addr) :
    List (String × GVal) → List Addr → List (String × Json) × List Addr
  | [], seen => ([], seen)
  | (k, v) :: rest, seen =>
    match f v seen with
    | (j, seen1) =>
      match sanitizeFieldsWith f rest seen1 with
      | (fs, seen2) => ((k, j) :: fs, seen2)

/-- `sanitizeRecursive` with the recursion depth replaced by remaining
fuel: a call at depth `d` runs with `fuel = maxDepth + 1 - d`, so
`fuel = 0` is exactly the source's entry check `depth > maxDepth`.  The
`seen` list is the WeakSet of already-visited objects: it is threaded
through the traversal (and returned) because the source mutates one
shared set, and an object is never removed from it. -/
def sanitizeFuel (store : Store) : Nat → GVal → Nat → List Addr → Json × List Addr
  | 0, _, maxDepth, seen => (.str (truncMsg maxDepth), seen)
  | _ + 1, .prim p, _, seen => (primToJson p, seen)
  | fuel + 1, .ref a, maxDepth, seen =>
    if a ∈ seen then (.str "[Circular Ref]", seen)
    else
      match store a with
      | .arr elems =>
        match sanitizeListWith (fun v s => sanitizeFuel store fuel v maxDepth s)
          elems (a :: seen) with
        | (js, seen1) => (.arr js, seen1)
      | .obj fields =>
        match sanitizeFieldsWith (fun v s => sanitizeFuel store fuel v maxDepth s)
          fields (a :: seen) with
        | (fs, seen1) => (.obj fs, seen1)

/-- `sanitizeRecursive(obj, depth, maxDepth, seen)`: fuel is
`maxDepth + 1 - depth`, matching the entry check `depth > maxDepth` and
the `depth + 1` of every recursive call. -/
def sanitizeRecursive (store : Store) (v : GVal) (depth maxDepth : Nat) (seen : List Addr) : Json × List Addr :=
  sanitizeFuel store (maxDepth + 1 - depth) v maxDepth seen

/-- Subtree of a JSON tree at a path of child indices. -/
def jsonAt : Json → Addr → Option Json
  | t, [] => some t
  | .arr elems, i :: p =>
    match elems[i]? with
    | some c => jsonAt c p
    | none => none
  | .obj fields, i :: p =>
    match fields[i]? with
    | some kv => jsonAt kv.2 p
    | none => none
  | _, _ :: _ => none

/-- The graph value standing for a subtree located at `addr`. -/
def gvalOf (t : Json) (addr : Addr) : GVal :=
  match t with
  | .null => .prim .null
  | .bool b => .prim (.bool b)
  | .num n => .prim (.num n)
  | .str s => .prim (.str s)
  | .arr _ => .ref addr
  | .obj _ => .ref addr

/-- Heap holding a freshly-built JSON tree: each composite subtree lives
at the address given by its path from the root, so distinct positions are
distinct objects — exactly the sharing structure of a value built by
`JSON.parse` plus the handler's fresh object literals. -/
def storeOfJson (t : Json) : Store := fun addr =>
  match jsonAt t addr with
  | some (.arr elems) =>
    .arr (elems.enum.map fun p => gvalOf p.2 (addr ++ [p.1]))
  | some (.obj fields) =>
    .obj (fields.enum.map fun p => (p.2.1, gvalOf p.2.2 (addr ++ [p.1])))
  | _ => .obj []

/-- `sanitizeRecursive(result, 0, maxDepth)` applied to a freshly-built
tree-shaped value. -/
def sanitizeJson (t : Json) (maxDepth : Nat) : Json :=
  (sanitizeFuel (storeOfJson t) (maxDepth + 1) (gvalOf t []) maxDepth []).1

mutual

/-- Nesting depth of a JSON tree: primitives have depth 0, a composite is
one more than the deepest of its members. -/
def jsonDepth : Json → Nat
  | .arr elems => jsonListDepth elems + 1
  | .obj fields => jsonFieldsDepth fields + 1
  | _ => 0
termination_by t => sizeOf t

def jsonListDepth : List Json → Nat
  | [] => 0
  | c :: rest => max (jsonDepth c) (jsonListDepth rest)
termination_by l => sizeOf l

def jsonFieldsDepth : List (String × Json) → Nat
  | [] => 0
  | (_, v) :: rest => max (jsonDepth v) (jsonFieldsDepth rest)
termination_by l => sizeOf l

end

/- ------------------------------------------------------------------ -/
/- Mock generator (src/index.ts, `generateMockData`, lines 156-184)    -/
/- ------------------------------------------------------------------ -/

/-- The `type === "string"` branch of `generateMockData`: date-time
format first, then a non-empty `enum` (`schema.enum && schema.enum.length
> 0`, so an enum that is itself a non-empty string yields its first
character, as `schema.enum[0]` does), else the literal. -/
def mockString (schema : Json) : Json :=
  match jsGet schema "format" with
  | some (.str "date-time") => .str "2024-01-01T00:00:00Z"
  | _ =>
    match jsGet schema "enum" with
    | some (.arr (e :: _)) => e
    | some (.str s) =>
      match s.data with
      | c :: _ => .str (String.mk [c])
      | [] => .str "string_value"
    | _ => .str "string_value"

/-- `generateMockData(schema)` with recursion depth as fuel; every
recursive call is on a strict subterm of `schema`, so the wrapper
`generateMockData` below always supplies enough fuel.  `none` models the
JS `undefined` argument (`generateMockData(schema.items)` with no
`items`).  Note the source guards the `example` short-circuit with
truthiness (`if (schema.example)`), not presence. -/
def mockFuel : Nat → Option Json → Json
  | 0, _ => .null
  | .succ _, none => .null
  | .succ fuel, some schema =>
    if truthy schema = false then .null
    else if truthyO (jsGet schema "example") then (jsGet schema "example").getD .null
    else
      match jsGet schema "type" with
      | some (.str "object") =>
        .obj (match jsGet schema "properties" with
          | some (.obj props) => props.map fun kv => (kv.1, mockFuel fuel (some kv.2))
          | some (.arr elems) => elems.enum.map fun p => (toString p.1, mockFuel fuel (some p.2))
          | _ => [])
      | some (.str "array") => .arr [mockFuel fuel (jsGet schema "items")]
      | some (.str "string") => mockString schema
      | some (.str "integer") => .num 0
      | some (.str "number") => .num 0
      | some (.str "boolean") => .bool true
      | _ => .null
termination_by structural fuel _ => fuel

mutual

/-- Number of nodes of a JSON tree (used as a fuel bound). -/
def jsonSize : Json → Nat
  | .arr elems => jsonListSize elems + 1
  | .obj fields => jsonFieldsSize fields + 1
  | _ => 1
termination_by t => sizeOf t

def jsonListSize : List Json → Nat
  | [] => 0
  | c :: rest => jsonSize c + jsonListSize rest
termination_by l => sizeOf l

def jsonFieldsSize : List (String × Json) → Nat
  | [] => 0
  | (_, v) :: rest => jsonSize v + jsonFieldsSize rest
termination_by l => sizeOf l

end

/-- Fuel sufficient to run `mockFuel` to completion on a schema. -/
def mockFuelOf : Option Json → Nat
  | some s => Nat.succ (jsonSize s)
  | none => 1

/-- `generateMockData(schema)`.  `Nat.succ (jsonSize schema)` fuel
suffices because each recursive call strictly shrinks the schema
argument. -/
def generateMockData (schema : Option Json) : Json :=
  mockFuel (mockFuelOf schema) schema

/- ------------------------------------------------------------------ -/
/- Parameter schema extraction (`extractParameterSchema`, lines 87-99) -/
/- ------------------------------------------------------------------ -/

/-- `extractParameterSchema(param)`: explicit truthy `schema` field wins;
else a legacy flat `{type, format?, items?, enum?, default?}` object is
synthesized when `type` is truthy (`default` is kept whenever it is not
`undefined`); else `undefined`. -/
def extractParameterSchema : Option Json → Option Json
  | none => none
  | some p =>
    if isObjLike p = false then none
    else if truthyO (jsGet p "schema") then jsGet p "schema"
    else if truthyO (jsGet p "type") then
      some (.obj ([("type", (jsGet p "type").getD .null)]
        ++ (match jsGet p "format" with
            | some v => if truthy v then [("format", v)] else []
            | none => [])
        ++ (match jsGet p "items" with
            | some v => if truthy v then [("items", v)] else []
            | none => [])
        ++ (match jsGet p "enum" with
            | some v => if truthy v then [("enum", v)] else []
            | none => [])
        ++ (match jsGet p "default" with
            | some v => [("default", v)]
            | none => [])))
    else none

/- ------------------------------------------------------------------ -/
/- Operations and the filter loop (`getOperations`, handler 432-473)   -/
/- ------------------------------------------------------------------ -/

/-- `HTTP_METHOD_ORDER` / `HTTP_METHODS`. -/
def httpMethods : List String :=
  ["get", "post", "put", "delete", "patch", "options", "head", "trace"]

/-- `getOperations(pathItem)`: the values of recognized-method keys whose
value is a non-null object. -/
def getOperations : Json → List Json
  | .obj fields =>
    (fields.filter fun kv => httpMethods.contains kv.1 && isObjLike kv.2).map fun kv => kv.2
  | _ => []

/-- `op.summary?.toLowerCase().includes(lowerPattern) ||
op.description?.toLowerCase().includes(lowerPattern)`.  A non-string,
non-nullish summary would make the source throw (`toLowerCase` does not
exist); such documents are outside the model. -/
def opMatchesKeyword (lowerPattern : String) (op : Json) : Bool :=
  (match jsGet op "summary" with
   | some (.str s) => strContains (strToLower s) lowerPattern
   | _ => false)
  || (match jsGet op "description" with
      | some (.str s) => strContains (strToLower s) lowerPattern
      | _ => false)

/-- The `patternMatch` computation of the filter loop: vacuously true
when `path_pattern` is absent or empty (JS falsiness). -/
def entryKeywordMatch (patternOpt : Option String) (pathKey : String) (pathValue : Json) : Bool :=
  match patternOpt with
  | none => true
  | some pat =>
    if pat = "" then true
    else
      strContains (strToLower pathKey) (strToLower pat)
        || (getOperations pathValue).any (opMatchesKeyword (strToLower pat))

/-- `op && op.tags && op.tags.includes(tag)`.  For array-valued `tags`
this is exact membership by `===`; for a (malformed) string-valued `tags`
JS `String.prototype.includes` does substring search; other truthy shapes
would throw in the source. -/
def opHasTag (t : String) (op : Json) : Bool :=
  match jsGet op "tags" with
  | some (.arr l) => l.any fun j => match j with | .str s => s == t | _ => false
  | some (.str s) => s ≠ "" && strContains s t
  | _ => false

/-- The `tagMatch` computation: vacuously true when `tag` is absent or
empty (JS falsiness). -/
def tagFilterMatch (tagOpt : Option String) (pathValue : Json) : Bool :=
  match tagOpt with
  | none => true
  | some t =>
    if t = "" then true
    else (getOperations pathValue).any (opHasTag t)

/-- The filter loop of the `read_swagger_api` handler: falsy path values
are skipped (`if (!pathValue) continue`), then the keyword predicate and
the tag predicate must both pass; `matchCount` counts retained entries. -/
def filterPaths : List (String × Json) → Option String → Option String → List (String × Json) × Nat
  | [], _, _ => ([], 0)
  | (k, v) :: rest, pat, tg =>
    match filterPaths rest pat tg with
    | (kept, count) =>
      if truthy v = false then (kept, count)
      else if entryKeywordMatch pat k v = false then (kept, count)
      else if tagFilterMatch tg v = false then (kept, count)
      else ((k, v) :: kept, count + 1)

/- ------------------------------------------------------------------ -/
/- Normalizer (`simplifyPaths`, lines 245-311)                         -/
/- ------------------------------------------------------------------ -/

/-- One entry of the `parameters` projection: fields are emitted exactly
when the corresponding source property is defined (a property holding
`undefined` disappears at `JSON.stringify` time). -/
def simplifyParam (p : Json) : Json :=
  .obj (optField "name" (jsGet p "name")
    ++ optField "in" (jsGet p "in")
    ++ optField "required" (jsGet p "required")
    ++ optField "description" (jsGet p "description")
    ++ optField "schema" (extractParameterSchema (some p)))

/-- `op.parameters?.map(...) || []`: absent or nullish parameters give
`[]`; a truthy non-array would make the source throw. -/
def simplifyParameters (op : Json) : Json :=
  match jsGet op "parameters" with
  | some (.arr l) => .arr (l.map simplifyParam)
  | _ => .arr []

/-- `p && typeof p === "object" && p.in === "body"`. -/
def isBodyParam (p : Json) : Bool :=
  isObjLike p && (match jsGet p "in" with
    | some (.str s) => s == "body"
    | _ => false)

/-- Legacy request body: the first `in: "body"` parameter, when
`op.parameters` is an array. -/
def legacyBodyDescriptor (op : Json) : Option Json :=
  match jsGet op "parameters" with
  | some (.arr l) =>
    match l.find? isBodyParam with
    | some bp => some (.obj (optField "required" (jsGet bp "required")
        ++ optField "description" (jsGet bp "description")
        ++ optField "schema" (extractParameterSchema (some bp))))
    | none => none
  | _ => none

/-- The unified request-body descriptor: modern `requestBody` object if
truthy, else the legacy body parameter, else absent. -/
def simplifyRequestBody (op : Json) : Option Json :=
  match jsGet op "requestBody" with
  | some rb =>
    if isObjLike rb then
      some (.obj (optField "required" (jsGet rb "required")
        ++ optField "description" (jsGet rb "description")
        ++ optField "content" (jsGet rb "content")))
    else legacyBodyDescriptor op
  | none => legacyBodyDescriptor op

/-- One response descriptor:
`{description: r.description || "", content: r.content, schema: r.schema}`
— both `content` and `schema` are copied unconditionally. -/
def simplifyResponse (r : Json) : Json :=
  .obj ([("description", jsOr (jsGet r "description") (.str ""))]
    ++ optField "content" (jsGet r "content")
    ++ optField "schema" (jsGet r "schema"))

/-- `Object.entries(op.responses || {}).reduce(...)`. -/
def simplifyResponses (op : Json) : Json :=
  match jsOr (jsGet op "responses") (.obj []) with
  | .obj entries => .obj (entries.map fun kv => (kv.1, simplifyResponse kv.2))
  | .arr l => .obj (l.enum.map fun p => (toString p.1, simplifyResponse p.2))
  | _ => .obj []

/-- The per-operation projection built by `simplifyPaths` (field order is
the object-literal order of the source; an undefined `requestBody` is
dropped). -/
def simplifyOperation (op : Json) : Json :=
  .obj ([("summary", jsOr (jsGet op "summary") (.str "")),
    ("description", jsOr (jsGet op "description") (.str "")),
    ("operationId", jsOr (jsGet op "operationId") (.str "")),
    ("tags", jsOr (jsGet op "tags") (.arr [])),
    ("parameters", simplifyParameters op)]
    ++ optField "requestBody" (simplifyRequestBody op)
    ++ [("responses", simplifyResponses op)])

/-- Recognized-method entries of one path item. -/
def simplifyPathItem (pv : Json) : Json :=
  match pv with
  | .obj fields =>
    .obj ((fields.filter fun kv => httpMethods.contains kv.1 && isObjLike kv.2).map
      fun kv => (kv.1, simplifyOperation kv.2))
  | _ => .obj []

/-- `simplifyPaths(paths)`. -/
def simplifyPaths (paths : List (String × Json)) : Json :=
  .obj (paths.filterMap fun kv =>
    if truthy kv.2 then some (kv.1, simplifyPathItem kv.2) else none)

/- ------------------------------------------------------------------ -/
/- Mock injection loop (handler lines 486-499)                         -/
/- ------------------------------------------------------------------ -/

/-- The per-operation mock loop: first 2xx status key (else "200"), the
first content-type key when `content` is truthy (an empty or
empty-string-keyed map falls back to the legacy `schema`), and
`op.mock_response` appended when a truthy schema was found. -/
def addMockToOp (op : Json) : Json :=
  match op with
  | .obj fields =>
    let responsesVal := jsOr (lookupField fields "responses") (.obj [])
    let codes : List String :=
      match responsesVal with
      | .obj entries => entries.map Prod.fst
      | _ => []
    let successCode := (codes.find? (fun c => strStartsWith c "2")).getD "200"
    match jsGet responsesVal successCode with
    | some respObj =>
      if truthy respObj then
        let contentOpt := jsGet respObj "content"
        let mediaType : Option String :=
          if truthyO contentOpt then
            match contentOpt with
            | some (.obj (kv :: _)) => some kv.1
            | _ => none
          else none
        let schema : Option Json :=
          match mediaType with
          | some mt =>
            if mt = "" then jsGet respObj "schema"
            else
              match contentOpt with
              | some c =>
                (match jsGet c mt with
                 | some entry => jsGet entry "schema"
                 | none => none)
              | none => none
          | none => jsGet respObj "schema"
        match schema with
        | some sv =>
          if truthy sv then .obj (fields ++ [("mock_response", generateMockData (some sv))])
          else op
        | none => op
      else op
    | none => op
  | _ => op

def addMockPathItem (pathItem : Json) : Json :=
  match pathItem with
  | .obj ops => .obj (ops.map fun kv => (kv.1, addMockToOp kv.2))
  | _ => pathItem

def addMocks (simplified : Json) : Json :=
  match simplified with
  | .obj pathItems => .obj (pathItems.map fun kv => (kv.1, addMockPathItem kv.2))
  | _ => simplified

/- ------------------------------------------------------------------ -/
/- baseUrl derivation (handler lines 507-517)                          -/
/- ------------------------------------------------------------------ -/

mutual

/-- JS template-literal coercion of a value to text (arrays join with
commas; plain objects render as "[object Object]"). -/
def jsTemplateStr : Json → String
  | .null => "null"
  | .bool b => if b then "true" else "false"
  | .num n => toString n
  | .str s => s
  | .arr l => jsTemplateList l
  | .obj _ => "[object Object]"
termination_by t => sizeOf t

def jsTemplateList : List Json → String
  | [] => ""
  | [x] => jsTemplateStr x
  | x :: rest => jsTemplateStr x ++ "," ++ jsTemplateList rest
termination_by l => sizeOf l

end

/-- Characters before the first colon. -/
def beforeColon : List Char → List Char
  | [] => []
  | c :: rest => if c = ':' then [] else c :: beforeColon rest

/-- `new URL(url).protocol.replace(":", "")`: the scheme is the text
before the first colon. -/
def urlSchemeOf (url : String) : String :=
  String.mk (beforeColon url.data)

/-- `anyApi.servers?.[0]?.url || ""`. -/
def serversUrl (doc : Json) : Json :=
  match jsGet doc "servers" with
  | some sv =>
    match (match sv with
      | .arr (s0 :: _) => jsGet s0 "url"
      | .obj fields =>
        (match lookupField fields "0" with
         | some s0 => jsGet s0 "url"
         | none => none)
      | _ => none) with
    | some u => if truthy u then u else .str ""
    | none => .str ""
  | none => .str ""

/-- The handler's `baseUrl` IIFE: legacy `scheme://host + basePath` when
`host` is truthy (first declared scheme, else the fetch URL's scheme),
else the first modern server URL, else the empty string. -/
def baseUrlOf (doc : Json) (url : String) : Json :=
  match jsGet doc "host" with
  | some h =>
    if truthy h then
      let scheme : Json :=
        match jsGet doc "schemes" with
        | some (.arr (s0 :: _)) => s0
        | _ => .str (urlSchemeOf url)
      let basePath : Json := jsOr (jsGet doc "basePath") (.str "")
      .str (jsTemplateStr scheme ++ "://" ++ jsTemplateStr h ++ jsTemplateStr basePath)
    else serversUrl doc
  | none => serversUrl doc

/- ------------------------------------------------------------------ -/
/- read_swagger_api orchestration (handler lines 420-558)              -/
/- ------------------------------------------------------------------ -/

/-- Arguments of `read_swagger_api` after Zod validation
(`ReadSwaggerApiArgsSchema`); Zod defaults are `use_fallback=true`,
`generate_ts=true`, `generate_mock=false`, `max_depth=20`,
`limit_paths=50`, `limit_ops=200`. -/
structure ReadArgs where
  url : String
  path_pattern : Option String
  tag : Option String
  generate_ts : Bool
  generate_mock : Bool
  max_depth : Int
  limit_paths : Int
  limit_ops : Int

/-- The Zod range constraint `.int().min(1).max(100)` on `max_depth`. -/
def maxDepthAccepted (k : Int) : Bool :=
  decide (1 ≤ k) && decide (k ≤ 100)

/-- The Zod range constraint `.int().min(0).max(10000)` on `limit_paths`. -/
def limitPathsAccepted (n : Int) : Bool :=
  decide (0 ≤ n) && decide (n ≤ 10000)

/-- The Zod range constraint `.int().min(0).max(10000)` on `limit_ops`. -/
def limitOpsAccepted (n : Int) : Bool :=
  decide (0 ≤ n) && decide (n ≤ 10000)

/-- `${path_pattern || "无"}` — the diagnostic echo of a filter value. -/
def echoFilter : Option String → String
  | none => "无"
  | some s => if s = "" then "无" else s

/-- The zero-match diagnostic text of the handler (lines 475-480). -/
def noMatchText (p t : Option String) : String :=
  "未找到匹配的接口。\npath_pattern: " ++ echoFilter p ++ "\ntag: " ++ echoFilter t
    ++ "\n\n请尝试使用 list_controller_tags 查看可用模块，或检查关键词。"

/-- Result of one `read_swagger_api` run after document acquisition:
either the zero-match diagnostic (returned before `simplifyPaths`,
`sanitizeRecursive`, mock generation and TypeScript generation run), or
the sanitized JSON payload.  JSON-text rendering and the appended
TypeScript definition text (an external library) are outside the model. -/
inductive ReadOutcome where
  | noMatch (text : String)
  | payload (sanitized : Json)

/-- A string-valued field dropped when the option is absent (the source
stores `undefined`, which `JSON.stringify` drops). -/
def optStrField (key : String) : Option String → List (String × Json)
  | some s => [(key, Json.str s)]
  | none => []

/-- `Object.entries(api.paths || {})`. -/
def docPathsEntries (doc : Json) : List (String × Json) :=
  match jsOr (jsGet doc "paths") (.obj []) with
  | .obj l => l
  | .arr l => l.enum.map fun p => (toString p.1, p.2)
  | _ => []

/-- The `read_swagger_api` handler after `getSwaggerApi` succeeded:
filter, zero-match short-circuit, `simplifyPaths`, optional mock
injection, result assembly, and `sanitizeRecursive(result, 0, 30)` —
note the literal 30: the validated `max_depth`, `limit_paths` and
`limit_ops` arguments are never read by the handler. -/
def readSwaggerOutcome (doc : Json) (args : ReadArgs) : ReadOutcome :=
  let fp := filterPaths (docPathsEntries doc) args.path_pattern args.tag
  if fp.2 = 0 then
    .noMatch (noMatchText args.path_pattern args.tag)
  else
    let simplified := simplifyPaths fp.1
    let withMock := if args.generate_mock then addMocks simplified else simplified
    let result := Json.obj
      [("_meta", .obj [("url", .str args.url),
         ("filtered_count", .num (fp.2 : Int)),
         ("filters", .obj (optStrField "path_pattern" args.path_pattern
            ++ optStrField "tag" args.tag))]),
       ("baseUrl", baseUrlOf doc args.url),
       ("paths", withMock)]
    .payload (sanitizeJson result 30)

/- ------------------------------------------------------------------ -/
/- Acquisition: getSwaggerApi and fetchRawSwagger (lines 186-242)      -/
/- ------------------------------------------------------------------ -/

/-- The error message combining the resolver failure and the fallback
failure. -/
def compoundErrorMsg (parseErr fallbackErr : String) : String :=
  "SwaggerParser 和降级策略均失败。\nSwaggerParser: " ++ parseErr
    ++ "\n降级策略: " ++ fallbackErr

/-- `getSwaggerApi(url, use_fallback)` with the two network operations
abstracted as their outcomes (`SwaggerParser.dereference` under
`withTimeout`, and `fetchRawSwagger`); the `Nat` component counts how
many times `fetchRawSwagger` is invoked. -/
def getSwaggerApi (resolveResult fallbackResult : Except String Json) (use_fallback : Bool) :
    Except String Json × Nat :=
  match resolveResult with
  | .ok api => (.ok api, 0)
  | .error parseErr =>
    if use_fallback then
      match fallbackResult with
      | .ok api => (.ok api, 1)
      | .error fbErr => (.error (compoundErrorMsg parseErr fbErr), 1)
    else (.error parseErr, 0)

/-- An HTTP response as `fetchRawSwagger` observes it: `parsedBody` is
the result of `response.json()` (`none` when the body is not valid
JSON). -/
structure HttpResponse where
  ok : Bool
  status : Nat
  statusText : String
  contentType : Option String
  bodyText : String
  parsedBody : Option Json

/-- The content-type guard of `fetchRawSwagger`:
`contentType && !contentType.toLowerCase().includes("json")` — a missing
header (`headers.get` returns null) and an empty-string header value are
both falsy, so neither is rejected. -/
def contentTypeRejected : Option String → Bool
  | none => false
  | some ct => ct != "" && !(strContains (strToLower ct) "json")

/-- `fetchRawSwagger` on an observed response (the JSON-parse rejection
message of `response.json()` is modelled by a fixed string, and
`substring(0, 100)` by `String.take`). -/
def fetchRawSwagger (resp : HttpResponse) : Except String Json :=
  if resp.ok = false then
    .error ("HTTP " ++ toString resp.status ++ ": " ++ resp.statusText)
  else if contentTypeRejected resp.contentType then
    .error ("返回内容不是 JSON (Content-Type: " ++ resp.contentType.getD ""
      ++ ")。内容预览: " ++ strTake resp.bodyText 100 ++ "...")
  else
    match resp.parsedBody with
    | some j => .ok j
    | none => .error "Unexpected end of JSON input"

/- ------------------------------------------------------------------ -/
/- Specification-side definitions (for refinement comparisons)         -/
/- ------------------------------------------------------------------ -/

/-- Spec-side content-type error condition, following the claim's words:
an error iff "the response declares a Content-Type header whose value
does not contain json case-insensitively" — note it rejects a declared
empty-string value, unlike `contentTypeRejected`. -/
def specContentTypeError : Option String → Bool
  | none => false
  | some ct => !(strContains (strToLower ct) "json")

/-- Spec-side keyword retention predicate, following the claim's words:
keyword absent, or the path string contains it case-insensitively, or
some operation's summary/description contains it case-insensitively. -/
def SpecKeywordRetains (patternOpt : Option String) (pathKey : String) (pathValue : Json) : Prop :=
  patternOpt = none ∨
    ∃ p, patternOpt = some p ∧
      (strContains (strToLower pathKey) (strToLower p) = true ∨
       ∃ op ∈ getOperations pathValue, opMatchesKeyword (strToLower p) op = true)

/-- Spec-side tag retention predicate: tag absent (the code also treats
an empty-string tag as absent), or some operation's `tags` matches it. -/
def SpecTagRetains (tagOpt : Option String) (pathValue : Json) : Prop :=
  tagOpt = none ∨ tagOpt = some "" ∨
    ∃ t, tagOpt = some t ∧ ∃ op ∈ getOperations pathValue, opHasTag t op = true

/-- The retention test of the filter loop as a single predicate on one
path entry (used to characterize `filterPaths` as a `List.filter`). -/
def keepEntry (pat tg : Option String) (e : String × Json) : Bool :=
  truthy e.2 && entryKeywordMatch pat e.1 e.2 && tagFilterMatch tg e.2

/- ------------------------------------------------------------------ -/
/- Concrete documents, stores and arguments used by the theorems       -/
/- ------------------------------------------------------------------ -/

/-- Depth of the payload of a handler outcome (0 for the diagnostic). -/
def outcomeDepth : ReadOutcome → Nat
  | .noMatch _ => 0
  | .payload p => jsonDepth p

/-- The sanitized payload of a handler outcome, if any. -/
def outcomePayload : ReadOutcome → Option Json
  | .payload p => some p
  | .noMatch _ => none

/-- Number of path entries in the payload of a handler outcome. -/
def outcomePathsCount : ReadOutcome → Nat
  | .payload p =>
    (match jsGet p "paths" with
     | some (.obj l) => l.length
     | _ => 0)
  | .noMatch _ => 0

/-- Chained property accesses. -/
def jsGetChain : Json → List String → Option Json
  | v, [] => some v
  | v, k :: rest =>
    match jsGet v k with
    | some v2 => jsGetChain v2 rest
    | none => none

/-- read_swagger_api arguments with an accepted `max_depth` of 1 (all
other arguments at their Zod defaults except the generation flags). -/
def argsC1 : ReadArgs :=
  ⟨"https://example.com/api.json", none, none, false, false, 1, 50, 200⟩

/-- A small legacy-dialect document whose projected payload nests 9
levels deep. -/
def docC1 : Json :=
  .obj [("swagger", .str "2.0"),
    ("paths", .obj [("/a", .obj [("get", .obj [("responses", .obj [("200",
      .obj [("description", .str "ok"),
        ("schema", .obj [("type", .str "object"),
          ("properties", .obj [("x", .obj [("type", .str "string")])])])])])])])])]

/-- read_swagger_api arguments at their Zod defaults (generation flags
off). -/
def argsC2 : ReadArgs :=
  ⟨"https://example.com/api.json", none, none, false, false, 20, 50, 200⟩

/-- A document with 51 path entries, one more than the default
`limit_paths` of 50. -/
def docC2 : Json :=
  .obj [("paths", .obj ((List.range 51).map fun i => ("/p" ++ toString i, Json.obj [])))]

/-- A heap in which the object at `[2]` appears in two sibling fields of
the object at `[1]` — shared, but never on its own ancestor path. -/
def storeC3 : Store := fun a =>
  if a = [1] then .obj [("x", .ref [2]), ("y", .ref [2])] else .obj []

/-- A paths collection whose single response carries both a modern
`content` map and a legacy `schema`. -/
def pathsC5 : List (String × Json) :=
  [("/a", .obj [("get", .obj [("responses", .obj [("200",
    .obj [("description", .str "d"),
      ("content", .obj [("application/json", .obj [("schema", .obj [("type", .str "string")])])]),
      ("schema", .obj [("type", .str "string")])])])])])]

/-- A document with an empty paths object. -/
def docC9 : Json := .obj [("paths", .obj [])]

/-- Arguments with a keyword that can match nothing. -/
def argsC9 : ReadArgs :=
  ⟨"https://example.com/api.json", some "nothing", none, true, false, 20, 50, 200⟩

/-- A successful response declaring an empty-string Content-Type. -/
def respC10empty : HttpResponse :=
  ⟨true, 200, "OK", some "", "{}", some (.obj [])⟩

/-- A successful response with no Content-Type header at all. -/
def respC10none : HttpResponse :=
  ⟨true, 200, "OK", none, "5", some (.num 5)⟩

/- ================================================================== -/
/- Theorems                                                            -/
/- ================================================================== -/

/- String containment helpers. -/

theorem charsStartWith_append (p rest : List Char) :
    charsStartWith p (p ++ rest) = true := by
  induction p with
  | nil => simp [charsStartWith]
  | cons c p ih => simp [charsStartWith, ih]

theorem charsContain_nil (s : List Char) : charsContain s [] = true := by
  cases s with
  | nil => simp [charsContain]
  | cons c r => simp [charsContain, charsStartWith]

theorem charsContain_append_mid (a m b : List Char) :
    charsContain (a ++ (m ++ b)) m = true := by
  induction a with
  | nil =>
    cases m with
    | nil => simpa using charsContain_nil b
    | cons c m2 =>
      have h := charsStartWith_append (c :: m2) b
      simp only [List.cons_append] at h
      simp [charsContain, h]
  | cons c a2 ih => simp [charsContain, ih]

theorem strContains_of_data (s pat : String) (pre post : List Char)
    (h : s.data = pre ++ (pat.data ++ post)) : strContains s pat = true := by
  unfold strContains
  rw [h]
  exact charsContain_append_mid _ _ _

/- ------------------------------------------------------------------ -/
/- C8: resolver failure, fallback, compound error                      -/
/- ------------------------------------------------------------------ -/

/-- C8: when reference resolution fails and `use_fallback` is true, the
raw-read fallback runs exactly once (invocation count 1), and if it also
fails the single resulting error message is the compound message, which
literally embeds both underlying messages; with `use_fallback` false the
resolver's error propagates as-is and the fallback is never invoked; a
successful resolution never invokes the fallback. -/
theorem c8_fallback_compound (e f : String) (fb : Except String Json) (api : Json) :
    (getSwaggerApi (.error e) fb true).2 = 1 ∧
    getSwaggerApi (.error e) (.error f) true = (.error (compoundErrorMsg e f), 1) ∧
    compoundErrorMsg e f
      = "SwaggerParser 和降级策略均失败。\nSwaggerParser: " ++ e ++ "\n降级策略: " ++ f ∧
    strContains (compoundErrorMsg e f) e = true ∧
    strContains (compoundErrorMsg e f) f = true ∧
    getSwaggerApi (.error e) fb false = (.error e, 0) ∧
    getSwaggerApi (.ok api) fb true = (.ok api, 0) ∧
    getSwaggerApi (.ok api) fb false = (.ok api, 0) := by
  refine ⟨?_, rfl, rfl, ?_, ?_, rfl, rfl, rfl⟩
  · cases fb <;> rfl
  · refine strContains_of_data _ _ "SwaggerParser 和降级策略均失败。\nSwaggerParser: ".data
      ("\n降级策略: " ++ f).data ?_
    simp [compoundErrorMsg, String.data_append]
  · refine strContains_of_data _ _
      ("SwaggerParser 和降级策略均失败。\nSwaggerParser: " ++ e ++ "\n降级策略: ").data [] ?_
    simp [compoundErrorMsg, String.data_append]

/- ------------------------------------------------------------------ -/
/- C9: zero-match short-circuit                                        -/
/- ------------------------------------------------------------------ -/

/-- C9: whenever the filter retains zero path entries, the handler
returns the `.noMatch` diagnostic — produced before `simplifyPaths`,
`sanitizeRecursive`, mock injection or type generation run, and carrying
only text (no JSON payload, by the shape of `ReadOutcome.noMatch`) — and
that text embeds the echo of both attempted filters. -/
theorem c9_zero_match_diagnostic (doc : Json) (args : ReadArgs)
    (h : (filterPaths (docPathsEntries doc) args.path_pattern args.tag).2 = 0) :
    readSwaggerOutcome doc args = .noMatch (noMatchText args.path_pattern args.tag) ∧
    strContains (noMatchText args.path_pattern args.tag) (echoFilter args.path_pattern) = true ∧
    strContains (noMatchText args.path_pattern args.tag) (echoFilter args.tag) = true := by
  refine ⟨?_, ?_, ?_⟩
  · simp only [readSwaggerOutcome, h, if_pos]
  · refine strContains_of_data _ _ "未找到匹配的接口。\npath_pattern: ".data
      ("\ntag: " ++ echoFilter args.tag
        ++ "\n\n请尝试使用 list_controller_tags 查看可用模块，或检查关键词。").data ?_
    simp [noMatchText, String.data_append]
  · refine strContains_of_data _ _
      ("未找到匹配的接口。\npath_pattern: " ++ echoFilter args.path_pattern ++ "\ntag: ").data
      "\n\n请尝试使用 list_controller_tags 查看可用模块，或检查关键词。".data ?_
    simp [noMatchText, String.data_append]

/-- Witness for C9 at a concrete empty document and a keyword matching
nothing. -/
theorem c9_zero_match_witness :
    readSwaggerOutcome docC9 argsC9 = .noMatch (noMatchText argsC9.path_pattern argsC9.tag) :=
  (c9_zero_match_diagnostic docC9 argsC9 rfl).1

/- ------------------------------------------------------------------ -/
/- C10: raw-read content-type guard                                    -/
/- ------------------------------------------------------------------ -/

/-- C10 counterexample: a response that declares an empty-string
Content-Type value (which does not contain "json", so the claim's
condition demands a content-type error) is nevertheless parsed
successfully: the guard `contentType && !...includes("json")` treats the
empty string as falsy. -/
theorem c10_content_type_counterexample :
    fetchRawSwagger respC10empty = .ok (.obj []) ∧
    specContentTypeError respC10empty.contentType = true ∧
    contentTypeRejected respC10empty.contentType = false :=
  ⟨rfl, rfl, rfl⟩

/-- C10 amended: the content-type error fires iff a Content-Type header
is present with a non-empty value that does not contain "json"
case-insensitively; with no Content-Type header at all, an ok response is
parsed as JSON with no content-type error. -/
theorem c10_content_type_guard :
    (∀ ct : Option String, contentTypeRejected ct = true ↔
      ∃ s, ct = some s ∧ s ≠ "" ∧ strContains (strToLower s) "json" = false) ∧
    (∀ resp : HttpResponse, resp.ok = true → resp.contentType = none →
      fetchRawSwagger resp =
        (match resp.parsedBody with
         | some j => .ok j
         | none => .error "Unexpected end of JSON input")) := by
  constructor
  · intro ct
    cases ct with
    | none => simp [contentTypeRejected]
    | some s => simp [contentTypeRejected, Bool.and_eq_true, bne_iff_ne]
  · intro resp h1 h2
    simp [fetchRawSwagger, h1, h2, contentTypeRejected]

/-- Witness for C10 at a concrete response with no Content-Type header:
the body is parsed as JSON. -/
theorem c10_content_type_guard_witness :
    fetchRawSwagger respC10none = .ok (.num 5) := by
  have h := c10_content_type_guard.2 respC10none rfl rfl
  simpa using h

/- ------------------------------------------------------------------ -/
/- C3: circular-reference marker scope                                 -/
/- ------------------------------------------------------------------ -/

/-- C3 counterexample: in `storeC3` the object at `[2]` occurs in the two
sibling fields `x` and `y` of the root `[1]` and never on its own
ancestor path; the claim demands both occurrences be recursed into
normally (yielding `{}` twice), but the second occurrence is replaced by
the circular-reference marker, because the visited set is never pruned
when a subtree is left. -/
theorem c3_sibling_counterexample :
    (sanitizeRecursive storeC3 (.ref [1]) 0 5 []).1
      = .obj [("x", .obj []), ("y", .str "[Circular Ref]")] ∧
    Json.str "[Circular Ref]" ≠ Json.obj [] :=
  ⟨rfl, fun h => Json.noConfusion h⟩

/-- C3 amended: a reference is replaced by the circular-reference marker
exactly when its object is already in the visited set at that point of
the traversal — a set that accumulates every object visited so far in the
same top-level call (threaded through `sanitizeListWith` and
`sanitizeFieldsWith`, never pruned), not just the current ancestor
path. -/
theorem c3_circular_marker_iff (store : Store) (a : Addr) (fuel maxDepth : Nat)
    (seen : List Addr) :
    (sanitizeFuel store (fuel + 1) (.ref a) maxDepth seen).1 = .str "[Circular Ref]"
      ↔ a ∈ seen := by
  by_cases h : a ∈ seen
  · simp [sanitizeFuel, h]
  · simp only [sanitizeFuel, if_neg h]
    constructor
    · intro hres
      exfalso
      cases hsa : store a with
      | arr elems =>
        rcases hr : sanitizeListWith (fun v s => sanitizeFuel store fuel v maxDepth s)
          elems (a :: seen) with ⟨js, seen1⟩
        rw [hsa] at hres
        simp [hr] at hres
      | obj fields =>
        rcases hr : sanitizeFieldsWith (fun v s => sanitizeFuel store fuel v maxDepth s)
          fields (a :: seen) with ⟨fs, seen1⟩
        rw [hsa] at hres
        simp [hr] at hres
    · intro hmem
      exact absurd hmem h

/- ------------------------------------------------------------------ -/
/- C4: mock generation and the example field                           -/
/- ------------------------------------------------------------------ -/

/-- Unfolding of the `generateMockData` wrapper to its fuelled core. -/
theorem generateMockData_eq (s : Json) :
    generateMockData (some s) = mockFuel (Nat.succ (jsonSize s)) (some s) := by
  simp only [generateMockData, mockFuelOf]

/-- The example short-circuit of `generateMockData`, for any sufficient
fuel: a truthy `example` is returned verbatim. -/
theorem mockFuel_example (fuel : Nat) (schema v : Json)
    (h : jsGet schema "example" = some v) (ht : truthy v = true) :
    mockFuel (Nat.succ fuel) (some schema) = v := by
  have hs : truthy schema = true := by
    cases schema
    case obj fields => rfl
    all_goals simp [jsGet] at h
  simp [mockFuel, hs, h, truthyO, ht]

/-- C4 counterexample: the schema `{type: "string", example: ""}` has an
`example` field present, yet `generateMockData` synthesizes
`"string_value"` instead of returning the example verbatim, because the
guard `if (schema.example)` tests truthiness, and `""` is falsy. -/
theorem c4_example_counterexample :
    generateMockData (some (.obj [("type", .str "string"), ("example", .str "")]))
      = .str "string_value" ∧
    Json.str "string_value" ≠ Json.str "" := by
  constructor
  · have hstep : ∀ fuel : Nat,
        mockFuel (Nat.succ fuel) (some (.obj [("type", .str "string"), ("example", .str "")]))
          = .str "string_value" := by
      intro fuel
      simp only [mockFuel]
      rfl
    rw [generateMockData_eq]
    exact hstep _
  · intro h
    injection h with h2
    exact absurd h2 (by decide)

/-- C4 amended: for every schema whose `example` field is present *and
truthy*, `generateMockData` returns the example verbatim with no further
synthesis, regardless of the declared type. -/
theorem c4_example_truthy_verbatim (schema v : Json)
    (h : jsGet schema "example" = some v) (ht : truthy v = true) :
    generateMockData (some schema) = v := by
  rw [generateMockData_eq]
  exact mockFuel_example (jsonSize schema) schema v h ht

/-- Witness for C4 at the specification's own example: the schema
`{example: {x: 1}}` yields `{x: 1}` verbatim. -/
theorem c4_example_truthy_verbatim_witness :
    generateMockData (some (.obj [("example", .obj [("x", .num 1)])]))
      = .obj [("x", .num 1)] :=
  c4_example_truthy_verbatim _ _ rfl rfl

/- ------------------------------------------------------------------ -/
/- C5: unified response descriptors                                    -/
/- ------------------------------------------------------------------ -/

/-- C5 counterexample: in the projection of `pathsC5`, whose single
response carries both a modern `content` map and a legacy `schema`, the
normalized descriptor populates *both* fields — `simplifyPaths` copies
`content` and `schema` unconditionally, so "exactly one is populated" is
not an invariant over all inputs. -/
theorem c5_both_populated_counterexample :
    (jsGetChain (simplifyPaths pathsC5) ["/a", "get", "responses", "200", "content"]).isSome
      = true ∧
    (jsGetChain (simplifyPaths pathsC5) ["/a", "get", "responses", "200", "schema"]).isSome
      = true :=
  ⟨rfl, rfl⟩

/-- C5 amended: every operation projection carries a `responses` field
built by `simplifyResponses`, and each response descriptor has a
(defaulted) `description` plus `content` and `schema` copied verbatim
from the input response — each populated exactly when present in the
input, so exactly one is populated iff the input response carries exactly
one of the two. -/
theorem c5_responses_copied :
    (∀ op : Json, jsGet (simplifyOperation op) "responses" = some (simplifyResponses op)) ∧
    (∀ r : Json,
      jsGet (simplifyResponse r) "description"
        = some (jsOr (jsGet r "description") (.str "")) ∧
      jsGet (simplifyResponse r) "content" = jsGet r "content" ∧
      jsGet (simplifyResponse r) "schema" = jsGet r "schema") := by
  constructor
  · intro op
    cases hrb : simplifyRequestBody op with
    | none => simp [simplifyOperation, hrb, optField, jsGet, lookupField]
    | some rb => simp [simplifyOperation, hrb, optField, jsGet, lookupField]
  · intro r
    refine ⟨?_, ?_, ?_⟩ <;>
      (rcases hc : jsGet r "content" with _ | vc <;>
        rcases hs2 : jsGet r "schema" with _ | vs <;>
        · simp only [simplifyResponse, hc, hs2, optField]
          rfl)

/- ------------------------------------------------------------------ -/
/- C6: sanitizer termination and depth bound                           -/
/- ------------------------------------------------------------------ -/

theorem jsonDepth_primToJson (p : Prim) : jsonDepth (primToJson p) = 0 := by
  cases p <;> simp [primToJson, jsonDepth]

theorem sanitizeListWith_depth (f : GVal → List Addr → Json × List Addr) (c : Nat)
    (hf : ∀ v s, jsonDepth (f v s).1 ≤ c) :
    ∀ (l : List GVal) (seen : List Addr),
      jsonListDepth (sanitizeListWith f l seen).1 ≤ c := by
  intro l
  induction l with
  | nil => intro seen; simp [sanitizeListWith, jsonListDepth]
  | cons v rest ih =>
    intro seen
    rcases h1 : f v seen with ⟨j, s1⟩
    rcases h2 : sanitizeListWith f rest s1 with ⟨js, s2⟩
    simp only [sanitizeListWith, h1, h2]
    simp only [jsonListDepth]
    refine Nat.max_le.mpr ⟨?_, ?_⟩
    · have := hf v seen
      rw [h1] at this
      exact this
    · have := ih s1
      rw [h2] at this
      exact this

theorem sanitizeFieldsWith_depth (f : GVal → List Addr → Json × List Addr) (c : Nat)
    (hf : ∀ v s, jsonDepth (f v s).1 ≤ c) :
    ∀ (l : List (String × GVal)) (seen : List Addr),
      jsonFieldsDepth (sanitizeFieldsWith f l seen).1 ≤ c := by
  intro l
  induction l with
  | nil => intro seen; simp [sanitizeFieldsWith, jsonFieldsDepth]
  | cons kv rest ih =>
    intro seen
    rcases kv with ⟨k, v⟩
    rcases h1 : f v seen with ⟨j, s1⟩
    rcases h2 : sanitizeFieldsWith f rest s1 with ⟨fs, s2⟩
    simp only [sanitizeFieldsWith, h1, h2]
    simp only [jsonFieldsDepth]
    refine Nat.max_le.mpr ⟨?_, ?_⟩
    · have := hf v seen
      rw [h1] at this
      exact this
    · have := ih s1
      rw [h2] at this
      exact this

/-- The output of the sanitizer never nests deeper than the fuel it ran
with. -/
theorem sanitizeFuel_depth (store : Store) :
    ∀ (fuel : Nat) (v : GVal) (maxDepth : Nat) (seen : List Addr),
      jsonDepth (sanitizeFuel store fuel v maxDepth seen).1 ≤ fuel := by
  intro fuel
  induction fuel with
  | zero => intro v maxDepth seen; simp [sanitizeFuel, jsonDepth]
  | succ n ih =>
    intro v maxDepth seen
    cases v with
    | prim p =>
      simp only [sanitizeFuel]
      simp [jsonDepth_primToJson]
    | ref a =>
      by_cases hmem : a ∈ seen
      · simp [sanitizeFuel, hmem, jsonDepth]
      · simp only [sanitizeFuel, if_neg hmem]
        cases hsa : store a with
        | arr elems =>
          rcases hr : sanitizeListWith (fun v s => sanitizeFuel store n v maxDepth s)
            elems (a :: seen) with ⟨js, s1⟩
          simp only [hsa, hr]
          have hd := sanitizeListWith_depth _ n (fun v s => ih v maxDepth s) elems (a :: seen)
          rw [hr] at hd
          have hd2 : jsonListDepth js ≤ n := hd
          simp only [jsonDepth]
          omega
        | obj fields =>
          rcases hr : sanitizeFieldsWith (fun v s => sanitizeFuel store n v maxDepth s)
            fields (a :: seen) with ⟨fs, s1⟩
          simp only [hsa, hr]
          have hd := sanitizeFieldsWith_depth _ n (fun v s => ih v maxDepth s) fields (a :: seen)
          rw [hr] at hd
          have hd2 : jsonFieldsDepth fs ≤ n := hd
          simp only [jsonDepth]
          omega

/-- C6: `sanitizeRecursive` is a total function of its input (it is
defined for every store, including cyclic object graphs, and for every
starting value — termination by construction); a call that has exceeded
the depth limit (zero fuel, i.e. `depth > maxDepth`) returns the
truncation marker naming `maxDepth` and recurses no further; a primitive
within the depth bound passes through unchanged; and a top-level call
`sanitizeRecursive(v, 0, maxDepth)` yields output nesting at most
`maxDepth + 1` levels (the markers standing for depth-`maxDepth + 1`
subtrees included). -/
theorem c6_sanitize_depth_terminates :
    (∀ (store : Store) (v : GVal) (maxDepth : Nat) (seen : List Addr),
      sanitizeFuel store 0 v maxDepth seen = (.str (truncMsg maxDepth), seen)) ∧
    (∀ (store : Store) (p : Prim) (fuel maxDepth : Nat) (seen : List Addr),
      sanitizeFuel store (fuel + 1) (.prim p) maxDepth seen = (primToJson p, seen)) ∧
    (∀ (store : Store) (v : GVal) (maxDepth : Nat),
      jsonDepth (sanitizeRecursive store v 0 maxDepth []).1 ≤ maxDepth + 1) := by
  refine ⟨?_, ?_, ?_⟩
  · intro store v maxDepth seen
    cases v <;> rfl
  · intro store p fuel maxDepth seen
    rfl
  · intro store v maxDepth
    have h := sanitizeFuel_depth store (maxDepth + 1 - 0) v maxDepth []
    simpa [sanitizeRecursive] using h

/- ------------------------------------------------------------------ -/
/- C7: filter retention                                                -/
/- ------------------------------------------------------------------ -/

theorem strContains_empty (s : String) : strContains s "" = true :=
  charsContain_nil s.data

/-- The filter loop is `List.filter keepEntry` together with the count of
retained entries. -/
theorem filterPaths_eq_filter (paths : List (String × Json)) (pat tg : Option String) :
    filterPaths paths pat tg
      = (paths.filter (keepEntry pat tg), (paths.filter (keepEntry pat tg)).length) := by
  induction paths with
  | nil => rfl
  | cons e rest ih =>
    rcases e with ⟨k, v⟩
    cases htv : truthy v with
    | false => simp [filterPaths, ih, keepEntry, htv, List.filter_cons]
    | true =>
      cases hkw : entryKeywordMatch pat k v with
      | false => simp [filterPaths, ih, keepEntry, htv, hkw, List.filter_cons]
      | true =>
        cases htg : tagFilterMatch tg v with
        | false => simp [filterPaths, ih, keepEntry, htv, hkw, htg, List.filter_cons]
        | true => simp [filterPaths, ih, keepEntry, htv, hkw, htg, List.filter_cons]

theorem entryKeywordMatch_iff (pat : Option String) (k : String) (v : Json) :
    entryKeywordMatch pat k v = true ↔ SpecKeywordRetains pat k v := by
  cases pat with
  | none => simp [entryKeywordMatch, SpecKeywordRetains]
  | some p =>
    by_cases hp : p = ""
    · subst hp
      simp only [entryKeywordMatch, if_pos rfl, SpecKeywordRetains]
      constructor
      · intro _
        exact Or.inr ⟨"", rfl, Or.inl (strContains_empty _)⟩
      · intro _
        rfl
    · simp [entryKeywordMatch, hp, SpecKeywordRetains, List.any_eq_true]

theorem tagFilterMatch_iff (tg : Option String) (v : Json) :
    tagFilterMatch tg v = true ↔ SpecTagRetains tg v := by
  cases tg with
  | none => simp [tagFilterMatch, SpecTagRetains]
  | some t =>
    by_cases ht : t = ""
    · subst ht
      simp [tagFilterMatch, SpecTagRetains]
    · simp [tagFilterMatch, ht, SpecTagRetains, List.any_eq_true]

/-- C7 counterexample: a paths collection with one entry whose value is
`null`, and no filters at all: the claim's retention predicate holds (both
filters absent), yet the filter loop drops the entry
(`if (!pathValue) continue`) and reports `matchCount = 0`. -/
theorem c7_null_entry_counterexample :
    filterPaths [("/a", Json.null)] none none = ([], 0) ∧
    SpecKeywordRetains none "/a" Json.null ∧
    SpecTagRetains none Json.null :=
  ⟨rfl, Or.inl rfl, Or.inl rfl⟩

/-- C7 amended: an entry of the paths collection is retained iff its
value is truthy (non-null) AND the keyword predicate of the claim holds
AND the tag predicate holds (with an empty-string tag treated as absent,
by JS falsiness); `matchCount` is exactly the number of retained path
entries. -/
theorem c7_filter_retention (paths : List (String × Json)) (pat tg : Option String) :
    (∀ e : String × Json,
      e ∈ (filterPaths paths pat tg).1 ↔
        (e ∈ paths ∧ truthy e.2 = true ∧ SpecKeywordRetains pat e.1 e.2 ∧
          SpecTagRetains tg e.2)) ∧
    (filterPaths paths pat tg).2 = (filterPaths paths pat tg).1.length := by
  rw [filterPaths_eq_filter]
  constructor
  · intro e
    simp only [List.mem_filter, keepEntry, Bool.and_eq_true, entryKeywordMatch_iff,
      tagFilterMatch_iff, and_assoc]
  · rfl

/- ------------------------------------------------------------------ -/
/- C1: max_depth is validated but never used                           -/
/- ------------------------------------------------------------------ -/

theorem lookupField_depth (fields : List (String × Json)) (k : String) (v : Json)
    (h : lookupField fields k = some v) : jsonDepth v ≤ jsonFieldsDepth fields := by
  induction fields with
  | nil => simp [lookupField] at h
  | cons kv rest ih =>
    rcases kv with ⟨k2, v2⟩
    by_cases he : k2 = k
    · rw [lookupField, if_pos he] at h
      injection h with h2
      subst h2
      simp only [jsonFieldsDepth]
      exact Nat.le_max_left _ _
    · rw [lookupField, if_neg he] at h
      have := ih h
      simp only [jsonFieldsDepth]
      exact le_trans this (Nat.le_max_right _ _)

theorem jsGet_depth (t : Json) (k : String) (v : Json)
    (h : jsGet t k = some v) : jsonDepth v < jsonDepth t := by
  cases t <;> simp [jsGet] at h
  case obj fields =>
    have := lookupField_depth fields k v h
    simp only [jsonDepth]
    omega

theorem jsGetChain_depth (ks : List String) (t v : Json)
    (h : jsGetChain t ks = some v) : jsonDepth v + ks.length ≤ jsonDepth t := by
  induction ks generalizing t with
  | nil =>
    simp only [jsGetChain] at h
    injection h with h2
    subst h2
    simp
  | cons k ks ih =>
    simp only [jsGetChain] at h
    rcases h2 : jsGet t k with _ | v2
    · rw [h2] at h
      simp at h
    · rw [h2] at h
      have h3 := ih v2 h
      have h4 := jsGet_depth t k v2 h2
      simp only [List.length_cons]
      omega

/-- C1 is violated by the code: for the accepted argument
`max_depth = 1` (`argsC1`) on `docC1`, the handler returns a payload in
which a composite subtree sits below 8 nested property accesses, so the
payload nests at least 9 levels — far beyond any reading of the claimed
bound `k = 1` (the handler sanitizes with the hard-coded constant 30 and
never reads `max_depth`). -/
theorem c1_max_depth_ignored :
    maxDepthAccepted argsC1.max_depth = true ∧
    argsC1.max_depth = 1 ∧
    ∃ p, outcomePayload (readSwaggerOutcome docC1 argsC1) = some p ∧ 9 ≤ jsonDepth p := by
  refine ⟨rfl, rfl, ?_⟩
  have hch : (outcomePayload (readSwaggerOutcome docC1 argsC1)).bind
      (fun p => jsGetChain p ["paths", "/a", "get", "responses", "200", "schema",
        "properties", "x"])
      = some (.obj [("type", .str "string")]) := rfl
  rcases Option.bind_eq_some.mp hch with ⟨p, hp, hpc⟩
  refine ⟨p, hp, ?_⟩
  have hd := jsGetChain_depth _ _ _ hpc
  have h1 : jsonDepth (Json.obj [("type", Json.str "string")]) = 1 := by
    simp [jsonDepth, jsonFieldsDepth]
  rw [h1] at hd
  simpa using hd

/- ------------------------------------------------------------------ -/
/- C2: limit_paths / limit_ops are validated but never used            -/
/- ------------------------------------------------------------------ -/

/-- C2 is violated by the code: with the default, accepted limits
(`limit_paths = 50`, `limit_ops = 200`) the handler returns all 51 path
entries of `docC2` — the validated `limit_paths`/`limit_ops` arguments
are never read, and no truncation of the entry count happens anywhere in
the pipeline. -/
theorem c2_limits_ignored :
    limitPathsAccepted argsC2.limit_paths = true ∧
    argsC2.limit_paths = 50 ∧
    limitOpsAccepted argsC2.limit_ops = true ∧
    outcomePathsCount (readSwaggerOutcome docC2 argsC2) = 51 :=
  ⟨rfl, rfl, rfl, rfl⟩

end SwaggerReader
